import Mathlib

/-!
Verification of the fornerds portfolio backend (Express + Mongoose).

The embedding translates the Portfolio schema (`models/Portfolio.js`, given
as `src/unnamed/part_003`), the serverless API bundle (`src/unnamed/part_001`)
and the route handlers (`src/routes/portfolio.js`) into executable Lean
definitions.  Mongo documents become a `Portfolio` structure, the database
becomes an association list keyed by id strings, and GridFS becomes an
explicit `BlobStore` value with a flag that says whether deletes succeed
(modelling an unreachable blob backend).
-/

set_option maxHeartbeats 1000000

/-- A portfolio document, mirroring the Mongoose schema in
`src/unnamed/part_003` (title, description, image, imageId, imageBase64,
url, category, tags, featured, views, likes plus the `createdAt` timestamp).
`imageId` is an `ObjectId` or `null`, modelled as `Option String`;
the numeric counters are JS numbers, modelled as `Int` so that the
`likes += -1` step of `toggleLike` is represented faithfully. -/
structure Portfolio where
  title : String
  description : String
  image : String
  imageId : Option String
  imageBase64 : String
  url : String
  category : String
  tags : List String
  featured : Bool
  views : Int
  likes : Int
  createdAt : Int
deriving DecidableEq, Repr

/-- A document with every field at its schema default (used to build
concrete test entries). -/
def basePortfolio : Portfolio :=
  { title := "", description := "", image := "", imageId := none,
    imageBase64 := "", url := "", category := "AI/ML", tags := [],
    featured := false, views := 0, likes := 0, createdAt := 0 }

/-- The `imageUrl` Mongoose virtual (part_003 lines 93-102):
`if (this.imageBase64) return this.imageBase64; else if (this.imageId)
return ` + "/api/portfolio/image/" + id + `; else if (this.image) return
this.image; return ''`.  JS string truthiness is non-emptiness and
`this.imageId` is truthy exactly when it is not `null`. -/
def imageUrl (p : Portfolio) : String :=
  if p.imageBase64 ≠ "" then p.imageBase64
  else
    match p.imageId with
    | some i => "/api/portfolio/image/" ++ i
    | none => if p.image ≠ "" then p.image else ""

/-- `toggleLike` instance method (part_003 lines 163-167):
`this.likes += increment ? 1 : -1; if (this.likes < 0) this.likes = 0;`. -/
def toggleLike (p : Portfolio) (increment : Bool) : Portfolio :=
  let newLikes : Int := p.likes + (if increment then 1 else -1)
  { p with likes := if newLikes < 0 then 0 else newLikes }

/-- A sequence of like toggles applied in order (each `POST /:id/like`
call runs `toggleLike` on the current document state). -/
def applyToggles (p : Portfolio) (ops : List Bool) : Portfolio :=
  ops.foldl toggleLike p

/-- `incrementViews` instance method (part_003 lines 157-160):
`this.views += 1`. -/
def incrementViews (p : Portfolio) : Portfolio :=
  { p with views := p.views + 1 }

/-! ## Pagination (GET / handler, routes/portfolio.js lines 69-88) -/

/-- The page slice: `query.skip((page-1)*limit).limit(limit)` applied to the
(already filtered and sorted) result list. -/
def listSlice (entries : List Portfolio) (page limit : Nat) : List Portfolio :=
  (entries.drop ((page - 1) * limit)).take limit

/-- The pagination envelope of the list response. -/
structure PaginationInfo where
  currentPage : Nat
  totalPages : Nat
  totalItems : Nat
  itemsPerPage : Nat
  hasNext : Bool
  hasPrev : Bool
deriving DecidableEq, Repr

/-- `Math.ceil(totalItems / limit)` for natural inputs and positive limit. -/
def jsCeilDiv (totalItems limit : Nat) : Nat :=
  (totalItems + limit - 1) / limit

/-- The pagination object built by the GET / handler (lines 76 and 81-88):
`totalPages = Math.ceil(totalItems/limit)`, `hasNext = page < totalPages`,
`hasPrev = page > 1`. -/
def mkPagination (page limit totalItems : Nat) : PaginationInfo :=
  { currentPage := page
    totalPages := jsCeilDiv totalItems limit
    totalItems := totalItems
    itemsPerPage := limit
    hasNext := decide (page < jsCeilDiv totalItems limit)
    hasPrev := decide (1 < page) }

/-! ## Theorems for pagination and counters -/

theorem likes_nonneg_step (p : Portfolio) (b : Bool) (h : 0 ≤ p.likes) :
    0 ≤ (toggleLike p b).likes := by
  cases b
  · show 0 ≤ if p.likes + -1 < 0 then (0 : Int) else p.likes + -1
    split <;> omega
  · show 0 ≤ if p.likes + 1 < 0 then (0 : Int) else p.likes + 1
    split <;> omega

theorem likes_nonneg_fold (ops : List Bool) (p : Portfolio) (h : 0 ≤ p.likes) :
    0 ≤ (applyToggles p ops).likes := by
  induction ops generalizing p with
  | nil => exact h
  | cons b rest ih => exact ih (toggleLike p b) (likes_nonneg_step p b h)

/-- C4: starting from `likes = 0`, the counter is nonnegative after every
prefix of any toggle sequence; a decrement at zero stays at zero, an
increment always adds one, and a decrement from a positive count subtracts
one. -/
theorem likes_never_negative (p : Portfolio) (ops : List Bool)
    (h : p.likes = 0) :
    (∀ k, 0 ≤ (applyToggles p (ops.take k)).likes)
    ∧ (∀ q : Portfolio, q.likes = 0 → (toggleLike q false).likes = 0)
    ∧ (∀ q : Portfolio, 0 ≤ q.likes → (toggleLike q true).likes = q.likes + 1)
    ∧ (∀ q : Portfolio, 0 < q.likes → (toggleLike q false).likes = q.likes - 1) := by
  refine ⟨fun k => likes_nonneg_fold (ops.take k) p (by omega), ?_, ?_, ?_⟩
  · intro q hq
    show (if q.likes + -1 < 0 then (0 : Int) else q.likes + -1) = 0
    rw [hq]
    norm_num
  · intro q hq
    show (if q.likes + 1 < 0 then (0 : Int) else q.likes + 1) = q.likes + 1
    rw [if_neg (by omega)]
  · intro q hq
    show (if q.likes + -1 < 0 then (0 : Int) else q.likes + -1) = q.likes - 1
    rw [if_neg (by omega)]
    omega

theorem likes_never_negative_witness :
    (0 : Int) ≤ (applyToggles basePortfolio ([true, false, false, true].take 3)).likes :=
  (likes_never_negative basePortfolio [true, false, false, true] rfl).1 3

/-- C3: for positive `limit` and 1-based `page`, the slice skips exactly
`(page-1)*limit` entries (element `i` of the slice is element
`(page-1)*limit + i` of the full result), `totalPages` is the ceiling of
`totalItems / limit` (characterised as the least multiple bound:
`totalItems ≤ totalPages * limit < totalItems + limit`), and
`hasNext`/`hasPrev` are `page < totalPages` / `page > 1`. -/
theorem pagination_spec (entries : List Portfolio) (page limit totalItems : Nat)
    (hl : 0 < limit) :
    (∀ i, i < limit →
      (listSlice entries page limit)[i]? = entries[(page - 1) * limit + i]?)
    ∧ totalItems ≤ (mkPagination page limit totalItems).totalPages * limit
    ∧ (mkPagination page limit totalItems).totalPages * limit < totalItems + limit
    ∧ ((mkPagination page limit totalItems).hasNext = true ↔
        page < jsCeilDiv totalItems limit)
    ∧ ((mkPagination page limit totalItems).hasPrev = true ↔ 1 < page)
    ∧ (mkPagination page limit totalItems).currentPage = page
    ∧ (mkPagination page limit totalItems).itemsPerPage = limit
    ∧ (mkPagination page limit totalItems).totalItems = totalItems := by
  refine ⟨?_, ?_, ?_, ?_, ?_, rfl, rfl, rfl⟩
  · intro i hi
    unfold listSlice
    rw [List.getElem?_take_of_lt hi, List.getElem?_drop]
  · show totalItems ≤ (totalItems + limit - 1) / limit * limit
    have h2 : totalItems + limit - 1 < limit * ((totalItems + limit - 1) / limit + 1) :=
      Nat.lt_mul_div_succ _ hl
    have h3 : limit * ((totalItems + limit - 1) / limit + 1) =
        (totalItems + limit - 1) / limit * limit + limit := by ring
    omega
  · show (totalItems + limit - 1) / limit * limit < totalItems + limit
    have h1 : (totalItems + limit - 1) / limit * limit ≤ totalItems + limit - 1 :=
      Nat.div_mul_le_self _ _
    omega
  · unfold mkPagination
    dsimp only
    exact decide_eq_true_iff
  · unfold mkPagination
    dsimp only
    exact decide_eq_true_iff

theorem pagination_spec_witness :
    (mkPagination 2 10 25).totalPages * 10 < 25 + 10 :=
  (pagination_spec [] 2 10 25 (by decide)).2.2.1

/-! ## Sorting (the `findWithFilters` query composers)

MongoDB's `.sort({f1: d1, f2: d2, ...})` orders documents lexicographically
by the listed keys; a direction of `-1` is descending.  In BSON, `false`
sorts before `true`.  A sort specification is embedded as a list of
(field name, direction) pairs and interpreted by a lexicographic
comparator over the schema's sortable fields. -/

/-- The BSON value of a boolean for ordering purposes (`false < true`). -/
def boolVal (b : Bool) : Nat := if b then 1 else 0

/-- Ascending comparison of two documents on one schema field. -/
def fieldOrd (f : String) (p q : Portfolio) : Ordering :=
  if f = "featured" then compare (boolVal p.featured) (boolVal q.featured)
  else if f = "createdAt" then compare p.createdAt q.createdAt
  else if f = "views" then compare p.views q.views
  else if f = "likes" then compare p.likes q.likes
  else if f = "title" then compare p.title q.title
  else Ordering.eq

/-- Comparison on one sort key, honouring its direction. -/
def keyCmp (p q : Portfolio) : String × Int → Ordering
  | (f, d) => if 0 ≤ d then fieldOrd f p q else (fieldOrd f p q).swap

/-- Lexicographic comparator for a whole sort specification. -/
def sortCmp (spec : List (String × Int)) (p q : Portfolio) : Ordering :=
  match spec with
  | [] => Ordering.eq
  | k :: rest =>
    match keyCmp p q k with
    | Ordering.eq => sortCmp rest p q
    | o => o

/-- `p` may be placed no later than `q` under the sort specification. -/
def sortLe (spec : List (String × Int)) (p q : Portfolio) : Prop :=
  sortCmp spec p q ≠ Ordering.gt

instance (spec : List (String × Int)) : DecidableRel (sortLe spec) :=
  fun p q => inferInstanceAs (Decidable (sortCmp spec p q ≠ Ordering.gt))

/-- The ordered result list produced by a `.sort(...)` specification. -/
def sortEntries (spec : List (String × Int)) (l : List Portfolio) : List Portfolio :=
  List.insertionSort (sortLe spec) l

namespace PortfolioModel

/-- The sort specification chosen by `findWithFilters` in
`src/unnamed/part_003` (lines 130-151): every branch of the `switch`,
the default branch, and the missing-`sort` branch put `featured: -1`
first. -/
def findWithFiltersSort (sort : Option String) : List (String × Int) :=
  match sort with
  | some s =>
    if s = "최신순" then [("featured", -1), ("createdAt", -1)]
    else if s = "인기순" then [("featured", -1), ("views", -1), ("likes", -1)]
    else if s = "이름순" then [("featured", -1), ("title", 1)]
    else if s = "조회순" then [("featured", -1), ("views", -1)]
    else [("featured", -1), ("createdAt", -1)]
  | none => [("featured", -1), ("createdAt", -1)]

end PortfolioModel

namespace ServerlessApi

/-- The sort specification chosen by `findWithFilters` in
`src/unnamed/part_001` (lines 127-146): only the `인기순` branch sorts
on `featured` first; the other branches and the default sort solely by
the secondary key. -/
def findWithFiltersSort (sort : Option String) : List (String × Int) :=
  match sort with
  | some s =>
    if s = "최신순" then [("createdAt", -1)]
    else if s = "인기순" then [("featured", -1), ("views", -1), ("likes", -1)]
    else if s = "이름순" then [("title", 1)]
    else if s = "조회순" then [("views", -1)]
    else [("createdAt", -1)]
  | none => [("createdAt", -1)]

end ServerlessApi

/-- "Featured first": wherever `a` appears before `b`, if `b` is featured
then so is `a` — equivalently, all featured entries precede all
non-featured ones. -/
def featOk (a b : Portfolio) : Prop := b.featured = true → a.featured = true

/-- A list places all featured entries before all non-featured ones. -/
def featuredFirst (l : List Portfolio) : Prop := l.Pairwise featOk

theorem featOk_trans (a b c : Portfolio) (h1 : featOk a b) (h2 : featOk b c) :
    featOk a c :=
  fun hc => h1 (h2 hc)

theorem pairwise_featOk_orderedInsert (r : Portfolio → Portfolio → Prop)
    [DecidableRel r]
    (h1 : ∀ a b, r a b → featOk a b)
    (h2 : ∀ a b, ¬ r a b → featOk b a)
    (a : Portfolio) (l : List Portfolio) (hl : l.Pairwise featOk) :
    (l.orderedInsert r a).Pairwise featOk := by
  induction l with
  | nil => simp [List.orderedInsert, List.Pairwise.nil]
  | cons b l ih =>
    rw [List.orderedInsert]
    by_cases hr : r a b
    · rw [if_pos hr]
      have hab : featOk a b := h1 a b hr
      refine List.pairwise_cons.mpr ⟨?_, hl⟩
      intro x hx
      rcases List.mem_cons.mp hx with h | h
      · subst h; exact hab
      · exact featOk_trans a b x hab ((List.pairwise_cons.mp hl).1 x h)
    · rw [if_neg hr]
      have hba : featOk b a := h2 a b hr
      refine List.pairwise_cons.mpr ⟨?_, ih (List.pairwise_cons.mp hl).2⟩
      intro x hx
      rcases (List.mem_orderedInsert r).mp hx with h | h
      · subst h; exact hba
      · exact (List.pairwise_cons.mp hl).1 x h

theorem pairwise_featOk_insertionSort (r : Portfolio → Portfolio → Prop)
    [DecidableRel r]
    (h1 : ∀ a b, r a b → featOk a b)
    (h2 : ∀ a b, ¬ r a b → featOk b a)
    (l : List Portfolio) :
    (List.insertionSort r l).Pairwise featOk := by
  induction l with
  | nil => simp [List.insertionSort, List.Pairwise.nil]
  | cons a l ih =>
    rw [List.insertionSort]
    exact pairwise_featOk_orderedInsert r h1 h2 a _ ih

theorem sortCmp_cons (k : String × Int) (rest : List (String × Int))
    (p q : Portfolio) :
    sortCmp (k :: rest) p q =
      match keyCmp p q k with
      | Ordering.eq => sortCmp rest p q
      | o => o := rfl

theorem keyCmp_featured (a b : Portfolio) :
    keyCmp a b ("featured", -1) =
      (compare (boolVal a.featured) (boolVal b.featured)).swap := by
  have hf : fieldOrd "featured" a b =
      compare (boolVal a.featured) (boolVal b.featured) := by
    unfold fieldOrd
    rw [if_pos rfl]
  show (if (0 : Int) ≤ -1 then fieldOrd "featured" a b
        else (fieldOrd "featured" a b).swap) =
      (compare (boolVal a.featured) (boolVal b.featured)).swap
  rw [if_neg (by norm_num), hf]

theorem sortCmp_featured_lt (rest : List (String × Int)) (a b : Portfolio)
    (ha : a.featured = true) (hb : b.featured = false) :
    sortCmp (("featured", -1) :: rest) a b = Ordering.lt := by
  rw [sortCmp_cons, keyCmp_featured, ha, hb]
  rfl

theorem sortCmp_featured_gt (rest : List (String × Int)) (a b : Portfolio)
    (ha : a.featured = false) (hb : b.featured = true) :
    sortCmp (("featured", -1) :: rest) a b = Ordering.gt := by
  rw [sortCmp_cons, keyCmp_featured, ha, hb]
  rfl

theorem sortCmp_featured_eq (rest : List (String × Int)) (a b : Portfolio)
    (h : a.featured = b.featured) :
    sortCmp (("featured", -1) :: rest) a b = sortCmp rest a b := by
  rw [sortCmp_cons, keyCmp_featured, h]
  cases b.featured <;> rfl

theorem featuredFirst_of_featured_head (rest : List (String × Int))
    (l : List Portfolio) :
    featuredFirst (sortEntries (("featured", -1) :: rest) l) := by
  apply pairwise_featOk_insertionSort
  · intro a b hr hbf
    by_contra haf
    have ha : a.featured = false := by revert haf; cases a.featured <;> simp
    exact hr (sortCmp_featured_gt rest a b ha hbf)
  · intro a b hr haf
    by_contra hbf
    have hb : b.featured = false := by revert hbf; cases b.featured <;> simp
    refine hr ?_
    show sortCmp (("featured", -1) :: rest) a b ≠ Ordering.gt
    rw [sortCmp_featured_lt rest a b haf hb]
    decide

theorem model_sort_head (sort : Option String) :
    ∃ rest, PortfolioModel.findWithFiltersSort sort = ("featured", -1) :: rest := by
  cases sort with
  | none => exact ⟨_, rfl⟩
  | some s =>
    simp only [PortfolioModel.findWithFiltersSort]
    split_ifs <;> exact ⟨_, rfl⟩

instance : DecidableRel featOk :=
  fun a b => inferInstanceAs (Decidable (b.featured = true → a.featured = true))

instance (l : List Portfolio) : Decidable (featuredFirst l) :=
  inferInstanceAs (Decidable (l.Pairwise featOk))

/-- C1 (amended): the model's `findWithFilters` (part_003) orders all
featured entries before all non-featured ones in every sort mode
(including unrecognized modes and a missing mode), and between entries with
equal `featured` flags its comparator coincides with the mode's secondary
key comparator (the specification with the leading `featured: -1` key
removed).  The serverless variant (part_001) guarantees featured-first only
for the `인기순` mode. -/
theorem model_sort_featured_first (sort : Option String) (l : List Portfolio) :
    featuredFirst (sortEntries (PortfolioModel.findWithFiltersSort sort) l)
    ∧ (∀ a b : Portfolio, a.featured = b.featured →
        sortCmp (PortfolioModel.findWithFiltersSort sort) a b =
          sortCmp (PortfolioModel.findWithFiltersSort sort).tail a b)
    ∧ featuredFirst (sortEntries (ServerlessApi.findWithFiltersSort (some "인기순")) l) := by
  obtain ⟨rest, hrest⟩ := model_sort_head sort
  refine ⟨?_, ?_, ?_⟩
  · rw [hrest]
    exact featuredFirst_of_featured_head rest l
  · intro a b hab
    rw [hrest, List.tail_cons]
    exact sortCmp_featured_eq rest a b hab
  · have hpop : ServerlessApi.findWithFiltersSort (some "인기순") =
        ("featured", -1) :: [("views", -1), ("likes", -1)] := rfl
    rw [hpop]
    exact featuredFirst_of_featured_head _ l

theorem model_sort_featured_first_witness :
    sortCmp (PortfolioModel.findWithFiltersSort (some "이름순")) basePortfolio basePortfolio =
      sortCmp (PortfolioModel.findWithFiltersSort (some "이름순")).tail basePortfolio basePortfolio :=
  (model_sort_featured_first (some "이름순") []).2.1 basePortfolio basePortfolio rfl

/-- A featured entry that was created earlier. -/
def entryFeatured : Portfolio := { basePortfolio with featured := true, createdAt := 5 }

/-- A non-featured entry that was created later. -/
def entryRecent : Portfolio := { basePortfolio with featured := false, createdAt := 10 }

/-- C1 counterexample: under the serverless composer (part_001) in mode
`최신순`, a non-featured entry with a later creation time is listed before a
featured entry, so not every sort mode of every composer places featured
entries first. -/
theorem serverless_newest_not_featured_first :
    sortEntries (ServerlessApi.findWithFiltersSort (some "최신순")) [entryFeatured, entryRecent]
        = [entryRecent, entryFeatured]
    ∧ entryRecent.featured = false
    ∧ entryFeatured.featured = true
    ∧ ¬ featuredFirst
        (sortEntries (ServerlessApi.findWithFiltersSort (some "최신순"))
          [entryFeatured, entryRecent]) := by
  refine ⟨by decide, rfl, rfl, by decide⟩

/-- C2: the resolved displayable image reference follows the precedence
inline base64, then blob-reference URL, then legacy `image`, else empty.
The portfolio router is mounted at `/api/portfolio`, so the
blob-reference-derived URL is the image-serving route `/portfolio/image/<id>`
under the `/api` mount prefix. -/
theorem imageUrl_precedence (p : Portfolio) :
    (p.imageBase64 ≠ "" → imageUrl p = p.imageBase64)
    ∧ (p.imageBase64 = "" → ∀ i, p.imageId = some i →
        imageUrl p = "/api" ++ ("/portfolio/image/" ++ i))
    ∧ (p.imageBase64 = "" → p.imageId = none → p.image ≠ "" → imageUrl p = p.image)
    ∧ (p.imageBase64 = "" → p.imageId = none → p.image = "" → imageUrl p = "") := by
  refine ⟨?_, ?_, ?_, ?_⟩
  · intro h
    simp [imageUrl, h]
  · intro h i hi
    simp [imageUrl, h, hi]
    rfl
  · intro h hi him
    simp [imageUrl, h, hi, him]
  · intro h hi him
    simp [imageUrl, h, hi, him]

/-- A document holding only a blob reference. -/
def entryBlob : Portfolio := { basePortfolio with imageId := some "abc123" }

theorem imageUrl_precedence_witness :
    imageUrl entryBlob = "/api" ++ ("/portfolio/image/" ++ "abc123") :=
  (imageUrl_precedence entryBlob).2.1 rfl "abc123" rfl

/-! ## Filters (GET / handler lines 60-65 and `findWithFilters` query
construction, part_003 lines 105-128)

The Mongo `$text` full-text engine is external to this repository, so the
search axis is parameterised by an arbitrary text-match predicate `tp`. -/

/-- The `filters` object assembled by the route from raw query-string
parameters. `none` = the parameter was absent from the query string. -/
structure RawQuery where
  category : Option String := none
  tags : Option String := none
  search : Option String := none
  sort : Option String := none
  featured : Option String := none
deriving DecidableEq, Repr

/-- The `filters` argument passed to `findWithFilters`. -/
structure Filters where
  category : Option String := none
  tags : Option (List String) := none
  search : Option String := none
  sort : Option String := none
  featured : Option Bool := none
deriving DecidableEq, Repr

/-- JS truthiness of a string: non-empty. -/
def jsTruthy (s : String) : Bool := s ≠ ""

/-- Route lines 54 and 60-65: `sort` defaults to `'최신순'` when absent;
`if (category) filters.category = category; if (tags) filters.tags =
tags.split(','); if (search) filters.search = search; if (sort)
filters.sort = sort; if (featured !== undefined) filters.featured =
featured === 'true';`. -/
def buildFilters (q : RawQuery) : Filters :=
  { category :=
      match q.category with
      | some c => if jsTruthy c then some c else none
      | none => none
    tags :=
      match q.tags with
      | some t => if jsTruthy t then some (t.splitOn ",") else none
      | none => none
    search :=
      match q.search with
      | some s => if jsTruthy s then some s else none
      | none => none
    sort :=
      match q.sort with
      | some s => if jsTruthy s then some s else none
      | none => some "최신순"
    featured :=
      match q.featured with
      | some v => some (v == "true")
      | none => none }

/-- `query.category = filters.category` (exact match). -/
def matchCategory : Option String → Portfolio → Bool
  | some c, p => p.category == c
  | none, _ => true

/-- `if (filters.tags && filters.tags.length > 0) query.tags = {$in: ...}`:
matches documents whose tag array contains any of the listed tags. -/
def matchTags : Option (List String) → Portfolio → Bool
  | some ts, p => if 0 < ts.length then ts.any (fun t => p.tags.contains t) else true
  | none, _ => true

/-- `query.$text = {$search: filters.search}` under an abstract text-match
predicate standing for Mongo's full-text index. -/
def matchSearch (tp : String → Portfolio → Bool) : Option String → Portfolio → Bool
  | some s, p => tp s p
  | none, _ => true

/-- `if (filters.featured !== undefined) query.featured = filters.featured`. -/
def matchFeatured : Option Bool → Portfolio → Bool
  | some b, p => p.featured == b
  | none, _ => true

/-- Whether a document satisfies the composed find query. -/
def matchesFilters (tp : String → Portfolio → Bool) (f : Filters)
    (p : Portfolio) : Bool :=
  matchCategory f.category p && matchTags f.tags p
    && matchSearch tp f.search p && matchFeatured f.featured p

/-- The full `findWithFilters` pipeline over a database snapshot:
filter by the composed query, then apply the model's sort. -/
def findWithFiltersExec (tp : String → Portfolio → Bool) (f : Filters)
    (db : List Portfolio) : List Portfolio :=
  sortEntries (PortfolioModel.findWithFiltersSort f.sort)
    (db.filter (matchesFilters tp f))

/-- A featured document (for the filter counterexample). -/
def pFeat : Portfolio := { basePortfolio with featured := true }

/-- C7 counterexample: the `featured` axis does not treat an unrecognized
value as a no-op.  With `featured=yes` the route sets
`filters.featured = ('yes' === 'true') = false`, so a featured document is
excluded, while omitting the parameter returns it. -/
theorem featured_filter_not_noop :
    List.filter (matchesFilters (fun _ _ => true)
        (buildFilters { featured := some "yes" })) [pFeat] = []
    ∧ List.filter (matchesFilters (fun _ _ => true)
        (buildFilters {})) [pFeat] = [pFeat] := by
  exact ⟨by decide, by decide⟩

/-- C7 (amended): an absent filter parameter is a no-op on its axis, and an
empty-string `category`/`tags`/`search` value (falsy in JS) is also a
no-op; but a present `featured` parameter always constrains the query to
`featured == (value === 'true')`, so an unrecognized featured value filters
to non-featured entries instead of being ignored. -/
theorem filters_noop_amended (q : RawQuery) (tp : String → Portfolio → Bool)
    (p : Portfolio) (v : String) :
    matchesFilters tp (buildFilters {}) p = true
    ∧ matchesFilters tp (buildFilters { q with category := some "" }) p =
        matchesFilters tp (buildFilters { q with category := none }) p
    ∧ matchesFilters tp (buildFilters { q with tags := some "" }) p =
        matchesFilters tp (buildFilters { q with tags := none }) p
    ∧ matchesFilters tp (buildFilters { q with search := some "" }) p =
        matchesFilters tp (buildFilters { q with search := none }) p
    ∧ matchesFilters tp (buildFilters { q with featured := some v }) p =
        (matchesFilters tp (buildFilters { q with featured := none }) p
          && (p.featured == (v == "true"))) := by
  refine ⟨?_, ?_, ?_, ?_, ?_⟩
  · simp [matchesFilters, buildFilters, matchCategory, matchTags, matchSearch,
      matchFeatured]
  · simp [matchesFilters, buildFilters, jsTruthy, matchCategory]
  · simp [matchesFilters, buildFilters, jsTruthy, matchTags]
  · simp [matchesFilters, buildFilters, jsTruthy, matchSearch]
  · simp [matchesFilters, buildFilters, matchFeatured, Bool.and_assoc]

/-! ## GridFS blob store and the write handlers (routes/portfolio.js) -/

/-- The GridFS bucket, as the list of stored file ids plus a flag saying
whether the backend is reachable for deletes (`deleteOk = false` models an
unreachable blob store whose `deleteFromGridFS` promise rejects). -/
structure BlobStore where
  blobs : List String
  deleteOk : Bool
deriving DecidableEq, Repr

/-- `deleteFromGridFS(fileId)`: removes the blob and resolves, or rejects
leaving the store unchanged.  The boolean reports success. -/
def deleteFromGridFS (s : BlobStore) (i : String) : BlobStore × Bool :=
  if s.deleteOk then ({ s with blobs := s.blobs.erase i }, true) else (s, false)

/-- `saveToGridFS(buffer, ...)`: stores a new blob under a fresh id. -/
def saveToGridFS (s : BlobStore) (i : String) : BlobStore :=
  { s with blobs := s.blobs ++ [i] }

/-- The `try { await deleteFromGridFS(...) } catch { console.warn(...) }`
pattern guarding every blob delete: failure is swallowed. -/
def bestEffortDelete (s : BlobStore) (oldId : Option String) : BlobStore :=
  match oldId with
  | some old => (deleteFromGridFS s old).1
  | none => s

/-- The image-processing block of the PUT /:id handler (lines 226-255).
`file = some newId` models `req.file` present with `saveToGridFS`
returning `newId`; `imageBase64 = some v` models the body field being
present with value `v` (JS truthiness makes `some ""` a no-op). -/
def putImage (p : Portfolio) (s : BlobStore) (file : Option String)
    (imageBase64 : Option String) : Portfolio × BlobStore :=
  match file with
  | some newId =>
    ({ p with imageId := some newId, imageBase64 := "" },
      saveToGridFS (bestEffortDelete s p.imageId) newId)
  | none =>
    match imageBase64 with
    | some v =>
      if v ≠ "" then
        match p.imageId with
        | some old =>
          ({ p with imageBase64 := v, imageId := none },
            (deleteFromGridFS s old).1)
        | none => ({ p with imageBase64 := v }, s)
      else (p, s)
    | none => (p, s)

/-- A JSON scalar that may arrive in the `featured` body field. -/
inductive JVal
  | str (s : String)
  | bool (b : Bool)
  | num (n : Int)
deriving DecidableEq, Repr

/-- `featured === 'true' || featured === true` for a present value. -/
def jsFeaturedValue : JVal → Bool
  | JVal.str s => s == "true"
  | JVal.bool b => b
  | JVal.num _ => false

/-- The `tags` body field: either a JSON array or a comma-separated
string. -/
inductive TagsInput
  | arr (l : List String)
  | str (s : String)
deriving DecidableEq, Repr

/-- `Array.isArray(tags) ? tags : tags.split(',').map(tag => tag.trim())`. -/
def parseTags : TagsInput → List String
  | TagsInput.arr l => l
  | TagsInput.str s => (s.splitOn ",").map String.trim

/-- The destructured PUT /:id request body; `none` = the field was absent
(`undefined`).  `file = some newId` models a multipart binary upload whose
GridFS save yields `newId`. -/
structure PutBody where
  title : Option String := none
  description : Option String := none
  url : Option String := none
  category : Option String := none
  tags : Option TagsInput := none
  featured : Option JVal := none
  imageBase64 : Option String := none
  file : Option String := none
deriving DecidableEq, Repr

/-- The `updateData` assembly (lines 217-223) followed by
`Object.assign(portfolio, updateData)`: each scalar field is overwritten
only when present in the body. -/
def scalarPatch (p : Portfolio) (b : PutBody) : Portfolio :=
  { p with
    title := match b.title with | some t => t | none => p.title
    description := match b.description with | some d => d | none => p.description
    url := match b.url with | some u => u | none => p.url
    category := match b.category with | some c => c | none => p.category
    tags := match b.tags with | some ti => parseTags ti | none => p.tags
    featured := match b.featured with | some v => jsFeaturedValue v | none => p.featured }

/-- The whole PUT /:id update of an existing document: scalar partial
patch plus the image-processing block. -/
def putHandler (p : Portfolio) (s : BlobStore) (b : PutBody) :
    Portfolio × BlobStore :=
  putImage (scalarPatch p b) s b.file b.imageBase64

/-- `featured: featured === 'true' || featured === true` in the POST /
handler's `portfolioData` (line 149); an absent `featured` compares
unequal to both and yields `false`. -/
def createFeatured (featured : Option JVal) : Bool :=
  match featured with
  | some v => jsFeaturedValue v
  | none => false

/-! ## Database snapshot and the id-addressed handlers -/

/-- `Portfolio.findById`: first entry with the given id. -/
def lookupEntry (db : List (String × Portfolio)) (id : String) :
    Option Portfolio :=
  match db.find? (fun e => e.1 == id) with
  | some e => some e.2
  | none => none

/-- `Portfolio.findByIdAndDelete`. -/
def removeEntry (db : List (String × Portfolio)) (id : String) :
    List (String × Portfolio) :=
  db.filter (fun e => !(e.1 == id))

/-- Persisting a mutated document (`portfolio.save()`). -/
def updateEntry (db : List (String × Portfolio)) (id : String)
    (p : Portfolio) : List (String × Portfolio) :=
  db.map (fun e => if e.1 == id then (e.1, p) else e)

def isHexChar (c : Char) : Bool :=
  c.isDigit || ('a' ≤ c && c ≤ 'f') || ('A' ≤ c && c ≤ 'F')

/-- Models `mongoose.Types.ObjectId.isValid` on a string input: a
24-character hexadecimal string. -/
def isValidObjectId (s : String) : Bool :=
  s.length == 24 && s.toList.all isHexChar

/-- Result of the GET /:id handler: the database after the request, the
HTTP status, and the returned document (if any). -/
structure GetResult where
  db : List (String × Portfolio)
  status : Nat
  data : Option Portfolio
deriving DecidableEq, Repr

/-- GET /:id (lines 101-127): validate the id, 404 when absent, otherwise
increment the view counter, save, and return the document. -/
def getByIdHandler (db : List (String × Portfolio)) (id : String) : GetResult :=
  if isValidObjectId id then
    match lookupEntry db id with
    | none => ⟨db, 404, none⟩
    | some p => ⟨updateEntry db id (incrementViews p), 200, some (incrementViews p)⟩
  else ⟨db, 400, none⟩

/-- Result of the DELETE /:id handler. -/
structure DeleteResult where
  db : List (String × Portfolio)
  store : BlobStore
  status : Nat
  success : Bool
deriving DecidableEq, Repr

/-- DELETE /:id (lines 287-323): validate the id, 404 when absent,
otherwise best-effort-delete the blob (failure only logged) and remove the
entry, reporting success. -/
def deleteHandler (db : List (String × Portfolio)) (s : BlobStore)
    (id : String) : DeleteResult :=
  if isValidObjectId id then
    match lookupEntry db id with
    | none => ⟨db, s, 404, false⟩
    | some p => ⟨removeEntry db id, bestEffortDelete s p.imageId, 200, true⟩
  else ⟨db, s, 400, false⟩

theorem putImage_scalars (p : Portfolio) (s : BlobStore) (f ib : Option String) :
    (putImage p s f ib).1.title = p.title
    ∧ (putImage p s f ib).1.description = p.description
    ∧ (putImage p s f ib).1.url = p.url
    ∧ (putImage p s f ib).1.category = p.category
    ∧ (putImage p s f ib).1.tags = p.tags
    ∧ (putImage p s f ib).1.featured = p.featured
    ∧ (putImage p s f ib).1.image = p.image
    ∧ (putImage p s f ib).1.views = p.views
    ∧ (putImage p s f ib).1.likes = p.likes
    ∧ (putImage p s f ib).1.createdAt = p.createdAt := by
  rcases f with _ | nid
  · rcases ib with _ | v
    · exact ⟨rfl, rfl, rfl, rfl, rfl, rfl, rfl, rfl, rfl, rfl⟩
    · by_cases hv : v = ""
      · subst hv
        exact ⟨rfl, rfl, rfl, rfl, rfl, rfl, rfl, rfl, rfl, rfl⟩
      · rcases hpi : p.imageId with _ | old <;> simp [putImage, hpi, hv]
  · exact ⟨rfl, rfl, rfl, rfl, rfl, rfl, rfl, rfl, rfl, rfl⟩

/-- C5: on update, a binary upload best-effort-deletes any prior blob,
stores the new blob on top of that store state, sets `imageId` to the new
reference and clears `imageBase64`; a (truthy) inline payload sets
`imageBase64`, best-effort-deletes the prior blob and clears `imageId`;
after either path at most one of `imageId`/`imageBase64` is set. -/
theorem putImage_spec (p : Portfolio) (s : BlobStore) (b64 : Option String) :
    (∀ newId,
        (putImage p s (some newId) b64).1.imageId = some newId
        ∧ (putImage p s (some newId) b64).1.imageBase64 = ""
        ∧ (putImage p s (some newId) b64).2 =
            saveToGridFS (bestEffortDelete s p.imageId) newId
        ∧ newId ∈ (putImage p s (some newId) b64).2.blobs
        ∧ ¬ ((putImage p s (some newId) b64).1.imageId ≠ none
              ∧ (putImage p s (some newId) b64).1.imageBase64 ≠ ""))
    ∧ (∀ v, v ≠ "" →
        (putImage p s none (some v)).1.imageBase64 = v
        ∧ (putImage p s none (some v)).1.imageId = none
        ∧ (putImage p s none (some v)).2 = bestEffortDelete s p.imageId
        ∧ ¬ ((putImage p s none (some v)).1.imageId ≠ none
              ∧ (putImage p s none (some v)).1.imageBase64 ≠ "")) := by
  constructor
  · intro newId
    refine ⟨rfl, rfl, rfl, ?_, ?_⟩
    · show newId ∈ (saveToGridFS (bestEffortDelete s p.imageId) newId).blobs
      simp [saveToGridFS]
    · intro hcontra
      exact hcontra.2 rfl
  · intro v hv
    rcases hpi : p.imageId with _ | old
    · refine ⟨?_, ?_, ?_, ?_⟩ <;>
        simp [putImage, hpi, hv, bestEffortDelete]
    · refine ⟨?_, ?_, ?_, ?_⟩ <;>
        simp [putImage, hpi, hv, bestEffortDelete]

theorem putImage_spec_witness :
    "data:image/png;base64,AAA" ≠ "" ∧
      (putImage entryBlob ⟨["abc123"], false⟩ none
          (some "data:image/png;base64,AAA")).1.imageId = none :=
  ⟨by decide,
    ((putImage_spec entryBlob ⟨["abc123"], false⟩
        (some "data:image/png;base64,AAA")).2
      "data:image/png;base64,AAA" (by decide)).2.1⟩

/-- C8: the PUT handler modifies only the fields present in the body;
absent fields keep their prior values, the legacy `image` field is never
written, and `views`, `likes` and `createdAt` are never changed by a
general update. -/
theorem update_partial_patch (p : Portfolio) (s : BlobStore) (b : PutBody) :
    ((b.title = none → (putHandler p s b).1.title = p.title)
      ∧ (∀ t, b.title = some t → (putHandler p s b).1.title = t))
    ∧ ((b.description = none → (putHandler p s b).1.description = p.description)
      ∧ (∀ d, b.description = some d → (putHandler p s b).1.description = d))
    ∧ ((b.url = none → (putHandler p s b).1.url = p.url)
      ∧ (∀ u, b.url = some u → (putHandler p s b).1.url = u))
    ∧ ((b.category = none → (putHandler p s b).1.category = p.category)
      ∧ (∀ c, b.category = some c → (putHandler p s b).1.category = c))
    ∧ ((b.tags = none → (putHandler p s b).1.tags = p.tags)
      ∧ (∀ ti, b.tags = some ti → (putHandler p s b).1.tags = parseTags ti))
    ∧ ((b.featured = none → (putHandler p s b).1.featured = p.featured)
      ∧ (∀ v, b.featured = some v → (putHandler p s b).1.featured = jsFeaturedValue v))
    ∧ (b.file = none → b.imageBase64 = none →
        (putHandler p s b).1.imageId = p.imageId
        ∧ (putHandler p s b).1.imageBase64 = p.imageBase64)
    ∧ (putHandler p s b).1.image = p.image
    ∧ (putHandler p s b).1.views = p.views
    ∧ (putHandler p s b).1.likes = p.likes
    ∧ (putHandler p s b).1.createdAt = p.createdAt := by
  have hs := putImage_scalars (scalarPatch p b) s b.file b.imageBase64
  refine ⟨⟨?_, ?_⟩, ⟨?_, ?_⟩, ⟨?_, ?_⟩, ⟨?_, ?_⟩, ⟨?_, ?_⟩, ⟨?_, ?_⟩,
    ?_, ?_, ?_, ?_, ?_⟩
  · intro h
    rw [show (putHandler p s b).1.title = (scalarPatch p b).title from hs.1]
    simp [scalarPatch, h]
  · intro t h
    rw [show (putHandler p s b).1.title = (scalarPatch p b).title from hs.1]
    simp [scalarPatch, h]
  · intro h
    rw [show (putHandler p s b).1.description = (scalarPatch p b).description
      from hs.2.1]
    simp [scalarPatch, h]
  · intro d h
    rw [show (putHandler p s b).1.description = (scalarPatch p b).description
      from hs.2.1]
    simp [scalarPatch, h]
  · intro h
    rw [show (putHandler p s b).1.url = (scalarPatch p b).url from hs.2.2.1]
    simp [scalarPatch, h]
  · intro u h
    rw [show (putHandler p s b).1.url = (scalarPatch p b).url from hs.2.2.1]
    simp [scalarPatch, h]
  · intro h
    rw [show (putHandler p s b).1.category = (scalarPatch p b).category
      from hs.2.2.2.1]
    simp [scalarPatch, h]
  · intro c h
    rw [show (putHandler p s b).1.category = (scalarPatch p b).category
      from hs.2.2.2.1]
    simp [scalarPatch, h]
  · intro h
    rw [show (putHandler p s b).1.tags = (scalarPatch p b).tags
      from hs.2.2.2.2.1]
    simp [scalarPatch, h]
  · intro ti h
    rw [show (putHandler p s b).1.tags = (scalarPatch p b).tags
      from hs.2.2.2.2.1]
    simp [scalarPatch, h]
  · intro h
    rw [show (putHandler p s b).1.featured = (scalarPatch p b).featured
      from hs.2.2.2.2.2.1]
    simp [scalarPatch, h]
  · intro v h
    rw [show (putHandler p s b).1.featured = (scalarPatch p b).featured
      from hs.2.2.2.2.2.1]
    simp [scalarPatch, h]
  · intro hf hib
    unfold putHandler
    rw [hf, hib]
    exact ⟨rfl, rfl⟩
  · rw [show (putHandler p s b).1.image = (scalarPatch p b).image
      from hs.2.2.2.2.2.2.1]
    rfl
  · rw [show (putHandler p s b).1.views = (scalarPatch p b).views
      from hs.2.2.2.2.2.2.2.1]
    rfl
  · rw [show (putHandler p s b).1.likes = (scalarPatch p b).likes
      from hs.2.2.2.2.2.2.2.2.1]
    rfl
  · rw [show (putHandler p s b).1.createdAt = (scalarPatch p b).createdAt
      from hs.2.2.2.2.2.2.2.2.2]
    rfl

theorem update_partial_patch_witness :
    (putHandler basePortfolio ⟨[], true⟩ { title := some "t2" }).1.title = "t2" :=
  (update_partial_patch basePortfolio ⟨[], true⟩ { title := some "t2" }).1.2
    "t2" rfl

theorem find_remove_none (db : List (String × Portfolio)) (id : String) :
    (removeEntry db id).find? (fun e => e.1 == id) = none := by
  unfold removeEntry
  induction db with
  | nil => rfl
  | cons e db ih =>
    rw [List.filter_cons]
    cases heq : (e.1 == id) with
    | true => simp only [heq, Bool.not_true, if_neg Bool.false_ne_true]; exact ih
    | false => simp only [heq, Bool.not_false, if_pos rfl, List.find?, heq]; exact ih

theorem lookupEntry_removeEntry (db : List (String × Portfolio)) (id : String) :
    lookupEntry (removeEntry db id) id = none := by
  unfold lookupEntry
  rw [find_remove_none]

/-- C6: deleting an existing entry that holds a blob reference succeeds even
when the blob store is unreachable (`deleteOk = false`, every
`deleteFromGridFS` rejects): the entry is removed, the handler reports
HTTP 200 with `success: true`, and the blob store is left as it was. -/
theorem delete_best_effort (db : List (String × Portfolio)) (s : BlobStore)
    (id : String) (p : Portfolio)
    (hv : isValidObjectId id = true)
    (hl : lookupEntry db id = some p)
    (hblob : p.imageId ≠ none)
    (hfail : s.deleteOk = false) :
    (deleteHandler db s id).success = true
    ∧ (deleteHandler db s id).status = 200
    ∧ lookupEntry (deleteHandler db s id).db id = none
    ∧ (deleteHandler db s id).store = s := by
  unfold deleteHandler
  rw [hv, if_pos rfl, hl]
  refine ⟨rfl, rfl, lookupEntry_removeEntry db id, ?_⟩
  rcases hpi : p.imageId with _ | old
  · exact absurd hpi hblob
  · simp [bestEffortDelete, hpi, deleteFromGridFS, hfail]

/-- An entry holding a blob reference, stored under a valid ObjectId. -/
def blobEntryId : String := "0123456789abcdef01234567"

def blobStoreDown : BlobStore := { blobs := ["abc123"], deleteOk := false }

theorem delete_best_effort_witness :
    (deleteHandler [(blobEntryId, entryBlob)] blobStoreDown blobEntryId).success = true :=
  (delete_best_effort [(blobEntryId, entryBlob)] blobStoreDown blobEntryId
    entryBlob (by decide) (by decide) (by decide) rfl).1

theorem lookupEntry_updateEntry (db : List (String × Portfolio)) (id : String)
    (x : Portfolio) (h : lookupEntry db id ≠ none) :
    lookupEntry (updateEntry db id x) id = some x := by
  induction db with
  | nil => exact absurd rfl h
  | cons e db ih =>
    cases heq : (e.1 == id) with
    | true =>
      show lookupEntry ((if e.1 == id then (e.1, x) else e) :: updateEntry db id x)
        id = some x
      rw [if_pos heq]
      have hpos : List.find? (fun y => y.1 == id) ((e.1, x) :: updateEntry db id x)
          = some (e.1, x) :=
        List.find?_cons_of_pos _ heq
      unfold lookupEntry
      rw [hpos]
    | false =>
      have hneg : List.find? (fun y => y.1 == id) (e :: updateEntry db id x)
          = List.find? (fun y => y.1 == id) (updateEntry db id x) :=
        List.find?_cons_of_neg _ (by simp [heq])
      have hneg2 : List.find? (fun y => y.1 == id) (e :: db)
          = List.find? (fun y => y.1 == id) db :=
        List.find?_cons_of_neg _ (by simp [heq])
      have h2 : lookupEntry db id ≠ none := by
        intro hc
        apply h
        unfold lookupEntry
        rw [hneg2]
        unfold lookupEntry at hc
        exact hc
      show lookupEntry ((if e.1 == id then (e.1, x) else e) :: updateEntry db id x)
        id = some x
      rw [if_neg (by simp [heq])]
      have h3 := ih h2
      unfold lookupEntry at h3 ⊢
      rw [hneg]
      exact h3

/-- C9: every successful GET /:id returns status 200 with the incremented
document, persists `views + 1`, three successive reads of a fresh document
leave `views = 3`, and a failing read (malformed id → 400, unknown id →
404) leaves the database unchanged. -/
theorem read_increments_views (db : List (String × Portfolio)) (id : String)
    (p : Portfolio) (hv : isValidObjectId id = true)
    (hl : lookupEntry db id = some p) :
    (getByIdHandler db id).status = 200
    ∧ (getByIdHandler db id).data = some (incrementViews p)
    ∧ (incrementViews p).views = p.views + 1
    ∧ lookupEntry (getByIdHandler db id).db id = some (incrementViews p)
    ∧ (p.views = 0 →
        ∃ q, lookupEntry
            (getByIdHandler (getByIdHandler (getByIdHandler db id).db id).db id).db
            id = some q
          ∧ q.views = 3)
    ∧ (∀ id2, isValidObjectId id2 = false →
        (getByIdHandler db id2).db = db ∧ (getByIdHandler db id2).status = 400)
    ∧ (∀ id2, isValidObjectId id2 = true → lookupEntry db id2 = none →
        (getByIdHandler db id2).db = db ∧ (getByIdHandler db id2).status = 404) := by
  have hstep : ∀ (db2 : List (String × Portfolio)) (p2 : Portfolio),
      lookupEntry db2 id = some p2 →
      getByIdHandler db2 id =
        ⟨updateEntry db2 id (incrementViews p2), 200, some (incrementViews p2)⟩ := by
    intro db2 p2 hl2
    unfold getByIdHandler
    rw [hv, if_pos rfl, hl2]
  have h1 := hstep db p hl
  refine ⟨?_, ?_, rfl, ?_, ?_, ?_, ?_⟩
  · rw [h1]
  · rw [h1]
  · rw [h1]
    exact lookupEntry_updateEntry db id (incrementViews p) (by simp [hl])
  · intro hv0
    have hl1 : lookupEntry (getByIdHandler db id).db id = some (incrementViews p) := by
      rw [h1]
      exact lookupEntry_updateEntry db id (incrementViews p) (by simp [hl])
    have h2 := hstep (getByIdHandler db id).db (incrementViews p) hl1
    have hl2 : lookupEntry (getByIdHandler (getByIdHandler db id).db id).db id
        = some (incrementViews (incrementViews p)) := by
      rw [h2]
      exact lookupEntry_updateEntry _ id _ (by simp [hl1])
    have h3 := hstep (getByIdHandler (getByIdHandler db id).db id).db
      (incrementViews (incrementViews p)) hl2
    refine ⟨incrementViews (incrementViews (incrementViews p)), ?_, ?_⟩
    · rw [h3]
      exact lookupEntry_updateEntry _ id _ (by simp [hl2])
    · show p.views + 1 + 1 + 1 = 3
      omega
  · intro id2 hbad
    unfold getByIdHandler
    rw [hbad]
    exact ⟨rfl, rfl⟩
  · intro id2 hok hnone
    unfold getByIdHandler
    rw [hok, if_pos rfl, hnone]
    exact ⟨rfl, rfl⟩

theorem read_increments_views_witness :
    (getByIdHandler [(blobEntryId, basePortfolio)] blobEntryId).status = 200 :=
  (read_increments_views [(blobEntryId, basePortfolio)] blobEntryId basePortfolio
    (by decide) (by decide)).1

/-- C10: a stored `featured` flag is `true` exactly when the supplied value
is the boolean `true` or the exact string `'true'` (on create and update
alike); `'True'`, `'1'`, `1`, `'false'`, `'yes'` and an absent value all
store `false`. -/
theorem featured_coercion :
    (∀ v : Option JVal, createFeatured v = true ↔
        v = some (JVal.str "true") ∨ v = some (JVal.bool true))
    ∧ (∀ (p : Portfolio) (s : BlobStore) (b : PutBody) (v : JVal),
        b.featured = some v →
        ((putHandler p s b).1.featured = true ↔
          v = JVal.str "true" ∨ v = JVal.bool true))
    ∧ createFeatured (some (JVal.str "True")) = false
    ∧ createFeatured (some (JVal.str "1")) = false
    ∧ createFeatured (some (JVal.num 1)) = false
    ∧ createFeatured (some (JVal.str "false")) = false
    ∧ createFeatured (some (JVal.str "yes")) = false
    ∧ createFeatured none = false := by
  refine ⟨?_, ?_, by decide, by decide, by decide, by decide, by decide, rfl⟩
  · intro v
    rcases v with _ | w
    · simp [createFeatured]
    · rcases w with sv | bv | nv <;> simp [createFeatured, jsFeaturedValue]
  · intro p s b v hb
    have hfeat : (putHandler p s b).1.featured = (scalarPatch p b).featured :=
      (putImage_scalars (scalarPatch p b) s b.file b.imageBase64).2.2.2.2.2.1
    rw [hfeat]
    show (match b.featured with
          | some v => jsFeaturedValue v
          | none => p.featured) = true ↔ v = JVal.str "true" ∨ v = JVal.bool true
    rw [hb]
    rcases v with sv | bv | nv <;> simp [jsFeaturedValue]

/-- A PUT body carrying only `featured: 'true'`. -/
def bodyFeatTrue : PutBody := { featured := some (JVal.str "true") }

theorem featured_coercion_witness :
    (putHandler basePortfolio ⟨[], true⟩ bodyFeatTrue).1.featured = true ↔
      JVal.str "true" = JVal.str "true" ∨ JVal.str "true" = JVal.bool true :=
  featured_coercion.2.1 basePortfolio ⟨[], true⟩ bodyFeatTrue (JVal.str "true") rfl
